import Mathlib

set_option maxRecDepth 40000
set_option maxHeartbeats 2000000

/-!
Verification of the chunks-browser web app's generation pipeline.

This file embeds, in Lean, the core of the web app's generation pipeline:

* the Structured-Response Recovery functions `parseJSON` and
  `repairTruncatedJSON` (src/web-app/src/services/contentGenerator.ts, lines
  6-95), together with a model of the host's `JSON.parse` on the JSON grammar;
* the Media Resolver (src/web-app/src/services/unsplash.ts — the module
  re-exported through `storageService`): `searchPhotos`, `getPhotoUrl`,
  `getFallbackImage`, `getCachedPhotoUrl`, plus `getImageForKeywords` from
  contentGenerator.ts;
* the prompt builders of `LLMService` (src/web-app/src/services/llm/index.ts);
* the two-phase orchestrator `generateStoriesWithChunks`,
  `generateChunksFromStory` and `generateMockChunks`
  (contentGenerator.ts, lines 122-399).

Remote endpoints are modelled as oracle functions (`Except`-valued stubs):
the Deepseek chat endpoint as a function from the request messages to a
response or a thrown error, and the Unsplash search endpoint as a function
from the query string to a photo list or a thrown error.  The JavaScript
execution model is single-threaded and cooperative, so stateful pieces
(the photo cache, the progress counter) are embedded by explicit state
passing; the interleaving of the phase-2 story branches is captured by an
explicit schedule where it matters (the progress-event trace).
-/

/-! ### Characters and small string utilities

The pipeline manipulates JavaScript strings; we work on `List Char` (with
`String.mk`/`String.data` packing) so every index and scan is explicit.
Brace characters are named via their code points. -/

/-- Left curly brace character (code point 123). -/
def lbraceChar : Char := Char.ofNat 123

/-- Right curly brace character (code point 125). -/
def rbraceChar : Char := Char.ofNat 125

/-- The whitespace characters trimmed and skipped by the embedding: space, tab,
newline, carriage return (the forms relevant to LLM responses; JavaScript's
`trim` and `JSON.parse` accept these). -/
def isJsWs (c : Char) : Bool :=
  c == ' ' || c == '\t' || c == '\n' || c == '\r'

/-- Drop leading whitespace from a character list. -/
def skipWs : List Char → List Char
  | c :: cs => if isJsWs c then skipWs cs else c :: cs
  | [] => []

/-- JavaScript `String.prototype.trim` on both ends. -/
def jsTrim (s : String) : String :=
  String.mk (((s.data.dropWhile fun c => isJsWs c).reverse.dropWhile
    fun c => isJsWs c).reverse)

/-- `p` is a prefix of `s` (JavaScript `startsWith`). -/
def strStartsWith (s p : String) : Bool := p.data.isPrefixOf s.data

/-- `p` is a suffix of `s` (JavaScript `endsWith`). -/
def strEndsWith (s p : String) : Bool := p.data.reverse.isPrefixOf s.data.reverse

/-- Drop the first `n` characters (JavaScript `substring(n)`). -/
def strDrop (s : String) (n : Nat) : String := String.mk (s.data.drop n)

/-- Keep the first `n` characters (JavaScript `substring(0, n)`). -/
def strTake (s : String) (n : Nat) : String := String.mk (s.data.take n)

/-- Drop the last `n` characters. -/
def strDropRight (s : String) (n : Nat) : String :=
  String.mk (s.data.take (s.data.length - n))

/-- Index of the first occurrence of `target` (JavaScript `indexOf`),
`none` for JavaScript's `-1`. -/
def firstIdxOf (target : Char) : List Char → Option Nat
  | [] => none
  | c :: cs =>
    if c = target then some 0
    else (firstIdxOf target cs).map (· + 1)

/-- Index of the last occurrence of `target` (JavaScript `lastIndexOf`),
`none` for JavaScript's `-1`. -/
def lastIdxOf (target : Char) (cs : List Char) : Option Nat :=
  (firstIdxOf target cs.reverse).map (fun i => cs.length - 1 - i)

/-! ### A model of the host's `JSON.parse`

`Json` is the parse result; numbers are kept as their source lexemes (the
claims under verification never compute with numeric values, so modelling
IEEE doubles is unnecessary; two numerals are equal here iff their lexemes
are).  The parser is total by structural recursion on a fuel counter that the
top-level entry point over-provisions, and it follows the JSON grammar that
`JSON.parse` accepts: optional whitespace, the seven value forms, strings
with the standard escapes (a `\uXXXX` escape that names an unpaired
surrogate, unrepresentable in a Lean `String`, is mapped to U+FFFD — no
input in this development contains one), and no trailing input. -/

inductive Json where
  | null : Json
  | bool (b : Bool) : Json
  | num (lexeme : String) : Json
  | str (s : String) : Json
  | arr (elems : List Json) : Json
  | obj (members : List (String × Json)) : Json
deriving Repr

/-- Hexadecimal digit value, `none` for non-hex characters. -/
def hexVal (c : Char) : Option Nat :=
  if c.isDigit then some (c.toNat - 48)
  else if 65 ≤ c.toNat ∧ c.toNat ≤ 70 then some (c.toNat - 55)
  else if 97 ≤ c.toNat ∧ c.toNat ≤ 102 then some (c.toNat - 87)
  else none

/-- The character denoted by a `\uXXXX` escape (surrogate code points become
U+FFFD, see the section comment). -/
def uEscapeChar (n : Nat) : Char :=
  if n < 55296 ∨ 57344 ≤ n then Char.ofNat n else Char.ofNat 65533

/-- Parse the body of a JSON string after its opening quote: returns the
decoded contents and the input after the closing quote. -/
def parseStringRest : List Char → Option (String × List Char)
  | [] => none
  | c :: r =>
    if c = '"' then some ("", r)
    else if c = '\\' then
      match r with
      | [] => none
      | e :: r2 =>
        if e = '"' ∨ e = '\\' ∨ e = '/' then
          (parseStringRest r2).map fun p => (String.mk (e :: p.1.data), p.2)
        else if e = 'b' then
          (parseStringRest r2).map fun p => (String.mk (Char.ofNat 8 :: p.1.data), p.2)
        else if e = 'f' then
          (parseStringRest r2).map fun p => (String.mk (Char.ofNat 12 :: p.1.data), p.2)
        else if e = 'n' then
          (parseStringRest r2).map fun p => (String.mk ('\n' :: p.1.data), p.2)
        else if e = 'r' then
          (parseStringRest r2).map fun p => (String.mk ('\r' :: p.1.data), p.2)
        else if e = 't' then
          (parseStringRest r2).map fun p => (String.mk ('\t' :: p.1.data), p.2)
        else if e = 'u' then
          match r2 with
          | a :: b :: c2 :: d :: r3 =>
            match hexVal a, hexVal b, hexVal c2, hexVal d with
            | some va, some vb, some vc, some vd =>
              (parseStringRest r3).map fun p =>
                (String.mk (uEscapeChar (((va * 16 + vb) * 16 + vc) * 16 + vd) :: p.1.data), p.2)
            | _, _, _, _ => none
          | _ => none
        else none
    else if c.toNat < 32 then none
    else (parseStringRest r).map fun p => (String.mk (c :: p.1.data), p.2)

/-- Split off a maximal run of decimal digits. -/
def takeDigits : List Char → List Char × List Char
  | [] => ([], [])
  | c :: cs =>
    if c.isDigit then
      let p := takeDigits cs
      (c :: p.1, p.2)
    else ([], c :: cs)

/-- Parse a JSON number token, returning its lexeme.  `0`-prefixed integer
parts take only the single `0` digit (a following digit is then rejected by
the surrounding grammar, as `JSON.parse` rejects `01`). -/
def parseNumberToken (cs : List Char) : Option (String × List Char) :=
  let sign : List Char × List Char :=
    match cs with
    | c :: r => if c = '-' then (['-'], r) else ([], cs)
    | [] => ([], [])
  match sign.2 with
  | [] => none
  | c :: r =>
    if ¬ c.isDigit then none
    else
      let intPart : List Char × List Char :=
        if c = '0' then (['0'], r) else takeDigits sign.2
      let frac : Option (List Char × List Char) :=
        match intPart.2 with
        | f :: r2 =>
          if f = '.' then
            let ds := takeDigits r2
            if ds.1 = [] then none else some ('.' :: ds.1, ds.2)
          else some ([], intPart.2)
        | [] => some ([], [])
      match frac with
      | none => none
      | some fracPart =>
        let expo : Option (List Char × List Char) :=
          match fracPart.2 with
          | e :: r3 =>
            if e = 'e' ∨ e = 'E' then
              let signedRest : List Char × List Char :=
                match r3 with
                | s :: r4 => if s = '+' ∨ s = '-' then ([s], r4) else ([], r3)
                | [] => ([], [])
              let ds := takeDigits signedRest.2
              if ds.1 = [] then none else some (e :: signedRest.1 ++ ds.1, ds.2)
            else some ([], fracPart.2)
          | [] => some ([], [])
        match expo with
        | none => none
        | some expPart =>
          some (String.mk (sign.1 ++ intPart.1 ++ fracPart.1 ++ expPart.1), expPart.2)

mutual

/-- Parse one JSON value (leading whitespace allowed); fuel-structural. -/
def parseVal : Nat → List Char → Option (Json × List Char)
  | 0, _ => none
  | f + 1, cs =>
    match skipWs cs with
    | [] => none
    | c :: r =>
      if c = '"' then
        (parseStringRest r).map fun p => (Json.str p.1, p.2)
      else if c = '[' then
        match skipWs r with
        | c2 :: r2 =>
          if c2 = ']' then some (Json.arr [], r2)
          else
            match parseElems f (c2 :: r2) with
            | some (vs, rest) => some (Json.arr vs, rest)
            | none => none
        | [] => none
      else if c = lbraceChar then
        match skipWs r with
        | c2 :: r2 =>
          if c2 = rbraceChar then some (Json.obj [], r2)
          else
            match parseMembers f (c2 :: r2) with
            | some (ms, rest) => some (Json.obj ms, rest)
            | none => none
        | [] => none
      else
        match c :: r with
        | 't' :: 'r' :: 'u' :: 'e' :: rest => some (Json.bool true, rest)
        | 'f' :: 'a' :: 'l' :: 's' :: 'e' :: rest => some (Json.bool false, rest)
        | 'n' :: 'u' :: 'l' :: 'l' :: rest => some (Json.null, rest)
        | cs2 => (parseNumberToken cs2).map fun p => (Json.num p.1, p.2)

/-- Parse one-or-more comma-separated array elements up to the closing
bracket (the empty array is handled in `parseVal`). -/
def parseElems : Nat → List Char → Option (List Json × List Char)
  | 0, _ => none
  | f + 1, cs =>
    match parseVal f cs with
    | none => none
    | some (v, rest) =>
      match skipWs rest with
      | c :: r =>
        if c = ',' then
          match parseElems f r with
          | some (vs, rest2) => some (v :: vs, rest2)
          | none => none
        else if c = ']' then some ([v], r)
        else none
      | [] => none

/-- Parse one-or-more comma-separated object members up to the closing brace
(the empty object is handled in `parseVal`). -/
def parseMembers : Nat → List Char → Option (List (String × Json) × List Char)
  | 0, _ => none
  | f + 1, cs =>
    match skipWs cs with
    | c :: r =>
      if c = '"' then
        match parseStringRest r with
        | none => none
        | some (key, r1) =>
          match skipWs r1 with
          | c2 :: r2 =>
            if c2 = ':' then
              match parseVal f r2 with
              | none => none
              | some (v, r3) =>
                match skipWs r3 with
                | c3 :: r4 =>
                  if c3 = ',' then
                    match parseMembers f r4 with
                    | some (ms, r5) => some ((key, v) :: ms, r5)
                    | none => none
                  else if c3 = rbraceChar then some ([(key, v)], r4)
                  else none
                | [] => none
            else none
          | [] => none
      else none
    | [] => none

end

/-- The host's `JSON.parse`: `none` models a thrown `SyntaxError`. -/
def jsonParse (s : String) : Option Json :=
  match parseVal (2 * s.data.length + 4) s.data with
  | some (v, rest) => if skipWs rest = [] then some v else none
  | none => none

/-! ### Structured-Response Recovery
(contentGenerator.ts lines 6-95.) -/

/-- Strip a leading markdown fence (```` ``` ```` optionally tagged `json`,
optionally followed by one newline) and a trailing fence (optionally preceded
by one newline), mirroring the two anchored regex `replace` calls on line 11
of contentGenerator.ts; only invoked when the text starts with ```` ``` ````. -/
def stripFences (s : String) : String :=
  let s1 :=
    if strStartsWith s "```json\n" then strDrop s 8
    else if strStartsWith s "```json" then strDrop s 7
    else if strStartsWith s "```\n" then strDrop s 4
    else strDrop s 3
  if strEndsWith s1 "\n```" then strDropRight s1 4
  else if strEndsWith s1 "```" then strDropRight s1 3
  else s1

/-- Lines 7-18 of `parseJSON`: trim, strip a markdown fence, and cut
everything after the last `]` when any text follows it. -/
def cleanResponse (response : String) : String :=
  let cleaned := jsTrim response
  let cleaned := if strStartsWith cleaned "```" then stripFences cleaned else cleaned
  match lastIdxOf ']' cleaned.data with
  | some i => if i < cleaned.data.length - 1 then strTake cleaned (i + 1) else cleaned
  | none => cleaned

/-- The state of `repairTruncatedJSON`'s left-to-right scan (lines 48-72):
bracket and brace depths are JavaScript numbers and may go negative, so they
are integers here; `lastGoodIndex` records the last `}` that returned the
brace depth to 0 at bracket depth exactly 1. -/
structure ScanState where
  bracketCount : Int
  braceCount : Int
  inString : Bool
  lastGoodIndex : Nat
deriving Repr, DecidableEq

/-- One iteration of the scan loop at position `i` with previous character
`prev`: toggle `inString` on a quote not preceded by a backslash, then count
brackets and braces only outside strings. -/
def scanStep (st : ScanState) (prev c : Char) (i : Nat) : ScanState :=
  let st := if c = '"' ∧ prev ≠ '\\' then { st with inString := ¬ st.inString } else st
  if st.inString then st
  else if c = '[' then { st with bracketCount := st.bracketCount + 1 }
  else if c = ']' then { st with bracketCount := st.bracketCount - 1 }
  else if c = lbraceChar then { st with braceCount := st.braceCount + 1 }
  else if c = rbraceChar then
    let bc := st.braceCount - 1
    { st with
      braceCount := bc
      lastGoodIndex :=
        if bc = 0 ∧ st.bracketCount = 1 then i else st.lastGoodIndex }
  else st

/-- Run the scan from position `i` with previous character `prev`. -/
def scanGo (st : ScanState) (prev : Char) (i : Nat) : List Char → ScanState
  | [] => st
  | c :: cs => scanGo (scanStep st prev c i) c (i + 1) cs

/-- The whole scan of lines 48-72; the previous character starts out as the
empty JavaScript string, modelled by the NUL character (all that matters is
that it is not a backslash). -/
def repairScan (cs : List Char) : ScanState :=
  scanGo ⟨0, 0, false, 0⟩ (Char.ofNat 0) 0 cs

/-- Lines 37-45: make the text start at its first `[`, prepending one if the
text has none. -/
def ensureArrayStart (s : String) : String :=
  if strStartsWith s "[" then s
  else
    match firstIdxOf '[' s.data with
    | some i => strDrop s i
    | none => "[" ++ s

/-- Lines 82-90: append `braces` closing braces (the positive part of the
scan's final `braceCount`), then a `]` unless the text already ends with
one. -/
def closeUnbalanced (t : String) (braces : Nat) : String :=
  let r2 := t ++ String.mk (List.replicate braces rbraceChar)
  if strEndsWith r2 "]" then r2 else r2 ++ "]"

/-- `repairTruncatedJSON` (lines 34-95): trim, start at `[`, scan, and — when
depths are unbalanced — truncate to `lastGoodIndex` (only when it moved past
0), append one `}` per remaining count of the scan's `braceCount`, and close
the array unless the text already ends with `]`. -/
def repairTruncatedJSON (json : String) : String :=
  let repaired := ensureArrayStart (jsTrim json)
  let st := repairScan repaired.data
  if st.braceCount > 0 ∨ st.bracketCount > 0 then
    closeUnbalanced
      (if st.lastGoodIndex > 0 then strTake repaired (st.lastGoodIndex + 1)
       else repaired)
      st.braceCount.toNat
  else repaired

/-- `parseJSON` (lines 6-31): clean, try a direct parse, repair on failure,
re-parse.  A final failure propagates the host parse error; the `Except`
error value carries the repaired text, which is what the code emits in its
`Repaired JSON:` diagnostic immediately before the failing re-parse. -/
def parseJSON (response : String) : Except String Json :=
  let cleaned := cleanResponse response
  match jsonParse cleaned with
  | some v => Except.ok v
  | none =>
    let repaired := repairTruncatedJSON cleaned
    match jsonParse repaired with
    | some v => Except.ok v
    | none => Except.error repaired

/-! ### Media Resolver
(src/web-app/src/services/unsplash.ts.)  The remote search endpoint is an
oracle `UnsplashRemote` mapping the query string to the fetched result list
or a thrown error (network failure or non-success HTTP status); `Except` is
the thrown-exception channel. -/

/-- UTF-8 bytes of one character. -/
def utf8Bytes (c : Char) : List Nat :=
  let n := c.toNat
  if n < 128 then [n]
  else if n < 2048 then [192 + n / 64, 128 + n % 64]
  else if n < 65536 then [224 + n / 4096, 128 + n / 64 % 64, 128 + n % 64]
  else [240 + n / 262144, 128 + n / 4096 % 64, 128 + n / 64 % 64, 128 + n % 64]

/-- Uppercase hex digit for a value below 16. -/
def hexDigitUpper (n : Nat) : Char :=
  if n < 10 then Char.ofNat (48 + n) else Char.ofNat (55 + n)

/-- The characters `encodeURIComponent` leaves intact: ASCII alphanumerics
and `- _ . ! ~ * ( )` plus the apostrophe (all given by code point). -/
def isUriUnreserved (c : Char) : Bool :=
  c.isAlpha || c.isDigit || [45, 95, 46, 33, 126, 42, 39, 40, 41].contains c.toNat

/-- JavaScript `encodeURIComponent`: unreserved characters pass through,
everything else is percent-encoded byte by byte (UTF-8, uppercase hex). -/
def encodeURIComponent (s : String) : String :=
  String.mk (s.data.foldr
    (fun c acc =>
      if isUriUnreserved c then c :: acc
      else (utf8Bytes c).foldr
        (fun b acc2 => '%' :: hexDigitUpper (b / 16) :: hexDigitUpper (b % 16) :: acc2) acc)
    [])

/-- The sized URL variants of an Unsplash photo (`urls` in the API shape). -/
structure PhotoUrls where
  raw : String
  full : String
  regular : String
  small : String
  thumb : String
deriving DecidableEq, Repr

/-- One Unsplash search result (the `UnsplashPhoto` interface). -/
structure UnsplashPhoto where
  id : String
  description : Option String
  altDescription : Option String
  urls : PhotoUrls
  userName : String
  userUsername : String
deriving DecidableEq, Repr

/-- The size variant requested from `getPhotoUrl`. -/
inductive PhotoSize where
  | regular : PhotoSize
  | small : PhotoSize
  | thumb : PhotoSize
deriving DecidableEq, Repr

/-- The size's name, as used in the cache key. -/
def sizeName : PhotoSize → String
  | PhotoSize.regular => "regular"
  | PhotoSize.small => "small"
  | PhotoSize.thumb => "thumb"

/-- Project the requested size variant out of a photo (`photos[0].urls[size]`). -/
def sizedUrl (p : UnsplashPhoto) : PhotoSize → String
  | PhotoSize.regular => p.urls.regular
  | PhotoSize.small => p.urls.small
  | PhotoSize.thumb => p.urls.thumb

/-- The remote Unsplash search: query string to result list or thrown error. -/
abbrev UnsplashRemote := String → Except String (List UnsplashPhoto)

/-- `searchPhotos(query, 1)`: issues the remote search; its `catch` block
logs and rethrows, so the thrown error propagates unchanged. -/
def searchPhotos (remote : UnsplashRemote) (query : String) :
    Except String (List UnsplashPhoto) :=
  remote query

/-- `getFallbackImage(keyword, index = 0)`: the deterministic offline URL;
note the source builds the `sig` seed from the raw (unencoded) keyword. -/
def getFallbackImage (keyword : String) (index : Nat) : String :=
  "https://source.unsplash.com/800x600/?" ++ encodeURIComponent keyword
    ++ "&sig=" ++ keyword ++ "-" ++ toString index

/-- `getPhotoUrl(keyword, size)`: first search result's sized URL; the
fallback URL when the result list is empty or the search threw (the
function's own try/catch absorbs every failure, so it is total). -/
def getPhotoUrl (remote : UnsplashRemote) (keyword : String) (size : PhotoSize) : String :=
  match searchPhotos remote keyword with
  | Except.ok (p :: _) => sizedUrl p size
  | Except.ok [] => getFallbackImage keyword 0
  | Except.error _ => getFallbackImage keyword 0

/-- The module-level `photoCache` map, embedded as an association list
(later inserts shadow earlier ones, like `Map.set`). -/
abbrev PhotoCache := List (String × String)

/-- `Map.get`: the value stored under `key`, if any. -/
def cacheLookup (key : String) : PhotoCache → Option String
  | [] => none
  | kv :: rest => if kv.1 = key then some kv.2 else cacheLookup key rest

/-- The cache key `` `${keyword}-${size}` ``. -/
def photoCacheKey (keyword : String) (size : PhotoSize) : String :=
  keyword ++ "-" ++ sizeName size

/-- `getCachedPhotoUrl(keyword, size)`: return a cached entry, else call
`getPhotoUrl` and store whatever it returns.  The third component counts the
remote searches this call issues (0 on a cache hit, 1 on a miss), which the
caching claims are about. -/
def getCachedPhotoUrl (remote : UnsplashRemote) (keyword : String) (size : PhotoSize)
    (cache : PhotoCache) : String × PhotoCache × Nat :=
  let cacheKey := photoCacheKey keyword size
  match cacheLookup cacheKey cache with
  | some url => (url, cache, 0)
  | none =>
    let url := getPhotoUrl remote keyword size
    (url, (cacheKey, url) :: cache, 1)

/-- `getImageForKeywords` (contentGenerator.ts lines 100-107): try
`getCachedPhotoUrl` at the default size and fall back to
`getFallbackImage` on a thrown error — unreachable here because
`getPhotoUrl` is total, which is exactly the never-raises behavior. -/
def getImageForKeywords (remote : UnsplashRemote) (keywords : String)
    (cache : PhotoCache) : String × PhotoCache :=
  let r := getCachedPhotoUrl remote keywords PhotoSize.regular cache
  (r.1, r.2.1)

/-! ### Prompt Builder / Remote Text Client
(src/web-app/src/services/llm/index.ts.)  The Deepseek chat endpoint is an
oracle from the request messages to the response text or a thrown error. -/

/-- Message roles accepted by the chat endpoint. -/
inductive ChatRole where
  | system : ChatRole
  | user : ChatRole
  | assistant : ChatRole
deriving DecidableEq, Repr

/-- One role-tagged message. -/
structure ChatMessage where
  role : ChatRole
  content : String
deriving DecidableEq, Repr

/-- The remote Deepseek endpoint: request messages to response or throw. -/
abbrev DeepseekRemote := List ChatMessage → Except String String

/-- `MAX_URLS` (llm/index.ts line 11). -/
def MAX_URLS : Nat := 50

/-- The story-grouping system prompt (line 15). -/
def storiesSystemPrompt : String :=
  "You are a content curator. Based on browsing history URLs, group them into 3-5 thematic stories that represent the user\x27s interests. Keep your response concise."

/-- The story-grouping user prompt up to the truncation note slot. -/
def storiesPromptHead : String :=
  "Based on the following browsing history URLs, group them into 3-5 thematic stories.\n"

/-- The story-grouping user prompt between the note slot and the URL list. -/
def storiesPromptMid : String :=
  "\n\nFor each story, provide:\n- id: A unique number (1, 2, 3, etc.)\n- title: A catchy title (max 40 characters)\n- description: Brief description (max 80 characters)\n- imageKeywords: 2-3 English keywords for image search\n- relatedUrls: Array of 2-5 most relevant URLs from input\n\nURLs to analyze:\n"

/-- The story-grouping user prompt after the URL list. -/
def storiesPromptTail : String :=
  "\n\nCRITICAL: Respond with ONLY a valid JSON array. No markdown, no explanation, no code blocks.\nFormat: [\x7b\"id\":1,\"title\":\"Title\",\"description\":\"Desc\",\"imageKeywords\":\"keyword1 keyword2\",\"relatedUrls\":[\"url1\"]\x7d]"

/-- The truncation note `` `(Showing ${MAX_URLS} of ${totalUrls} URLs for analysis)` ``. -/
def showingNote (totalUrls : Nat) : String :=
  "(Showing " ++ toString MAX_URLS ++ " of " ++ toString totalUrls
    ++ " URLs for analysis)"

/-- `` limitedUrls.map((url, i) => `${i + 1}. ${url}`).join('\n') ``. -/
def numberedUrls (urls : List String) : String :=
  String.intercalate "\n" (urls.mapIdx fun i url => toString (i + 1) ++ ". " ++ url)

/-- The user prompt of `LLMService.generateStories` (lines 9-31): the URL
list is cut to the first `MAX_URLS` entries and the note appears exactly
when the input had more. -/
def generateStoriesUserPrompt (urls : List String) : String :=
  storiesPromptHead
    ++ (if urls.length > MAX_URLS then showingNote urls.length else "")
    ++ storiesPromptMid
    ++ numberedUrls (urls.take MAX_URLS)
    ++ storiesPromptTail

/-- Modelled from the spec (for the C8 comparison): the story-grouping user
message with no truncation statement at all — the spec's reading of a prompt
over a list of at most `MAX_URLS` URLs, which then shows the whole list. -/
def storiesUserPromptUntruncated (urls : List String) : String :=
  storiesPromptHead ++ storiesPromptMid ++ numberedUrls urls ++ storiesPromptTail

/-- The message sequence sent by `LLMService.generateStories`. -/
def generateStoriesMessages (urls : List String) : List ChatMessage :=
  [⟨ChatRole.system, storiesSystemPrompt⟩,
   ⟨ChatRole.user, generateStoriesUserPrompt urls⟩]

/-- The chunk-expansion system prompt (llm/index.ts line 43). -/
def chunksSystemPrompt : String :=
  "You are an educational content creator. Create engaging, bite-sized knowledge cards."

/-- The chunk-expansion user prompt before the story title. -/
def chunksPromptHead : String :=
  "Create 5 engaging \"chunks\" (bite-sized knowledge cards) for the following topic:\n\nTopic: "

/-- The chunk-expansion user prompt after the related-URL list. -/
def chunksPromptTail : String :=
  "\n\nEach chunk should be educational and provide unique insights. Create exactly 5 chunks with:\n- id: Number from 1 to 5\n- title: Short, catchy title (max 30 characters)\n- content: Educational content that teaches something valuable (100-150 characters)\n- imageKeywords: 2-4 specific English keywords for Unsplash image search that visually represent THIS SPECIFIC chunk\x27s content. Each chunk should have UNIQUE keywords that match its specific topic. Be creative and specific:\n  - For a core concept chunk: focus on abstract visual metaphors\n  - For historical context: vintage, historical imagery\n  - For expert insight: professional, academic imagery\n  - For real-world application: practical, everyday imagery\n  - For deep dive: detailed, close-up, technical imagery\n\nThe chunks should follow this progression:\n1. Core Concept - Introduce the fundamental idea\n2. Historical Context - Background and evolution\n3. Expert Insight - What experts say about this\n4. Real-World Application - Practical examples\n5. Deep Dive - Advanced or fascinating aspect\n\nIMPORTANT: Respond ONLY with valid JSON array, no markdown formatting, no code blocks. Example:\n[\x7b\"id\":1,\"title\":\"Key Insight\",\"content\":\"The fundamental concept...\",\"imageKeywords\":\"abstract concept light bulb idea\"\x7d]"

/-- The message sequence sent by `LLMService.generateChunks` (lines 42-76).
The source declares a fourth parameter `_storyImageKeywords?: string` and
never reads it; the embedding keeps the parameter to state that fact. -/
def generateChunksMessages (storyTitle storyDescription : String)
    (relatedUrls : List String) (_storyImageKeywords : Option String) : List ChatMessage :=
  [⟨ChatRole.system, chunksSystemPrompt⟩,
   ⟨ChatRole.user,
     chunksPromptHead ++ storyTitle ++ "\nDescription: " ++ storyDescription
       ++ "\nRelated URLs for context: " ++ String.intercalate ", " relatedUrls
       ++ chunksPromptTail⟩]

/-! ### Data model and response decoding
(src/web-app/src/types/story.ts and the record shapes `parseJSON<T>` is
instantiated at in contentGenerator.ts.)  TypeScript's `parseJSON<T>` cast
performs no runtime validation; the decoder below mirrors what the
JavaScript property accesses would observe: a missing or non-string field
reads as `undefined` (`none`), and the only hard failure is a top-level
non-array, on which the subsequent `parsed.map` call throws inside the same
`try` as the parse. -/

/-- A knowledge card (`Chunk` in types/story.ts). -/
structure Chunk where
  id : Int
  title : String
  content : String
  image : String
  imageKeywords : Option String
deriving DecidableEq, Repr

/-- A themed story (`Story` in types/story.ts); `createdAt` is the
`new Date()` timestamp. -/
structure Story where
  id : Int
  title : String
  description : String
  image : String
  imageKeywords : Option String
  relatedUrls : List String
  chunks : Option (List Chunk)
  createdAt : Option Nat
deriving DecidableEq, Repr

/-- The raw story record shape parsed in phase 1. -/
structure StoryRecord where
  id : Int
  title : String
  description : String
  imageKeywords : Option String
  image : Option String
  relatedUrls : Option (List String)
deriving DecidableEq, Repr

/-- The raw chunk record shape parsed in phase 2. -/
structure ChunkRecord where
  id : Int
  title : String
  content : String
  imageKeywords : Option String
  image : Option String
deriving DecidableEq, Repr

/-- Object member lookup; a duplicated key reads as its last occurrence,
as in the host's `JSON.parse`. -/
def jLookup (key : String) : List (String × Json) → Option Json
  | [] => none
  | kv :: rest =>
    match jLookup key rest with
    | some v => some v
    | none => if kv.1 = key then some kv.2 else none

/-- JavaScript property read on a parsed value (non-objects have no
data properties of interest: the read is `undefined`). -/
def jGet (key : String) : Json → Option Json
  | Json.obj ms => jLookup key ms
  | _ => none

/-- Read a string-valued field. -/
def jString? : Option Json → Option String
  | some (Json.str s) => some s
  | _ => none

/-- Read an array-of-strings field. -/
def jStringList? : Option Json → Option (List String)
  | some (Json.arr xs) =>
    some (xs.filterMap fun j => match j with | Json.str s => some s | _ => none)
  | _ => none

/-- Integer value of a numeric lexeme's integer part (record `id`s in this
pipeline are small integers). -/
def lexInt (lex : String) : Int :=
  match lex.data with
  | '-' :: cs => -(((takeDigits cs).1.foldl (fun acc c => acc * 10 + (c.toNat - 48)) 0 : Nat) : Int)
  | cs => (((takeDigits cs).1.foldl (fun acc c => acc * 10 + (c.toNat - 48)) 0 : Nat) : Int)

/-- Read a numeric `id` field (0 when absent or non-numeric). -/
def jId (o : Option Json) : Int :=
  match o with
  | some (Json.num lex) => lexInt lex
  | _ => 0

/-- Decode one parsed story element into the record shape the orchestrator
reads. -/
def decodeStoryRecord (j : Json) : StoryRecord :=
  { id := jId (jGet "id" j)
    title := (jString? (jGet "title" j)).getD ""
    description := (jString? (jGet "description" j)).getD ""
    imageKeywords := jString? (jGet "imageKeywords" j)
    image := jString? (jGet "image" j)
    relatedUrls := jStringList? (jGet "relatedUrls" j) }

/-- Decode the phase-1 parse result; a non-array value makes the
orchestrator's `parsed.map` throw. -/
def decodeStoryRecords (j : Json) : Except String (List StoryRecord) :=
  match j with
  | Json.arr xs => Except.ok (xs.map decodeStoryRecord)
  | _ => Except.error "parsed.map is not a function"

/-- Decode one parsed chunk element. -/
def decodeChunkRecord (j : Json) : ChunkRecord :=
  { id := jId (jGet "id" j)
    title := (jString? (jGet "title" j)).getD ""
    content := (jString? (jGet "content" j)).getD ""
    imageKeywords := jString? (jGet "imageKeywords" j)
    image := jString? (jGet "image" j) }

/-- Decode the phase-2 parse result; a non-array value makes the
orchestrator's `chunksParsed.map` throw. -/
def decodeChunkRecords (j : Json) : Except String (List ChunkRecord) :=
  match j with
  | Json.arr xs => Except.ok (xs.map decodeChunkRecord)
  | _ => Except.error "chunksParsed.map is not a function"

/-- Phase-1 parse: Recovery followed by the record decode. -/
def parseStoryRecords (response : String) : Except String (List StoryRecord) :=
  (parseJSON response).bind decodeStoryRecords

/-- Phase-2 parse: Recovery followed by the record decode. -/
def parseChunkRecords (response : String) : Except String (List ChunkRecord) :=
  (parseJSON response).bind decodeChunkRecords

/-- JavaScript `a || b` on an optional string against a string default:
`undefined` and the empty string are falsy. -/
def jsOr (primary : Option String) (alt : String) : String :=
  match primary with
  | some s => if s = "" then alt else s
  | none => alt

/-! ### Generation Orchestrator
(contentGenerator.ts lines 122-399.)  The environment bundles the two
remote oracles and the clock.  Phase-2 story branches run as independent
concurrently-scheduled tasks; with deterministic oracles their *results* do
not depend on the interleaving, so the result model below threads state in
input order, while the progress-event trace — the one observable that does
depend on the interleaving — is modelled separately, over an explicit
schedule (see `chunkPhaseEvents`). -/

/-- The orchestrator's environment: the chat endpoint, the image search
endpoint, and `new Date()`. -/
structure GenEnv where
  deepseek : DeepseekRemote
  unsplash : UnsplashRemote
  now : Nat

/-- `item.imageKeywords || item.image || item.title` (line 194). -/
def storyKeywordsOf (item : StoryRecord) : String :=
  jsOr item.imageKeywords (jsOr item.image item.title)

/-- Lines 193-205: resolve the story image and assemble the `Story`
(chunks not yet populated). -/
def buildStory (env : GenEnv) (item : StoryRecord) (cache : PhotoCache) :
    Story × PhotoCache :=
  let kw := storyKeywordsOf item
  let r := getImageForKeywords env.unsplash kw cache
  ({ id := item.id
     title := item.title
     description := item.description
     image := r.1
     imageKeywords := some kw
     relatedUrls := item.relatedUrls.getD []
     chunks := none
     createdAt := some env.now }, r.2)

/-- The chunk-expansion request the orchestrator sends for a story
(lines 216-221 and 280-285): note it passes `story.imageKeywords` as the
fourth argument. -/
def chunkRequest (story : Story) : List ChatMessage :=
  generateChunksMessages story.title story.description story.relatedUrls
    story.imageKeywords

/-- `chunk.imageKeywords || chunk.image || storyKeywords` (line 234). -/
def chunkKeywordsOf (r : ChunkRecord) (storyKw : String) : String :=
  jsOr r.imageKeywords (jsOr r.image storyKw)

/-- Lines 232-245: resolve an image per parsed chunk record and assemble
the `Chunk` list. -/
def buildChunks (remote : UnsplashRemote) (storyKw : String) :
    List ChunkRecord → PhotoCache → List Chunk × PhotoCache
  | [], cache => ([], cache)
  | r :: rs, cache =>
    let kw := chunkKeywordsOf r storyKw
    let ri := getImageForKeywords remote kw cache
    let rest := buildChunks remote storyKw rs ri.2
    ({ id := r.id
       title := r.title
       content := r.content
       image := ri.1
       imageKeywords := some kw } :: rest.1, rest.2)

/-- The five fixed fallback keyword strings of `generateMockChunks`
(lines 354-360). -/
def mockChunkKeywords : List String :=
  ["abstract concept idea light bulb",
   "vintage history timeline old",
   "professional expert business meeting",
   "everyday practical real world application",
   "technical detail microscope close up"]

/-- `generateMockChunks` (lines 353-399): five fixed-template chunks
parameterized by the story's title, each with a pre-assigned fallback
keyword and an offline fallback image. -/
def generateMockChunks (story : Story) : List Chunk :=
  [{ id := 1
     title := "Key Insight #1"
     content := "Discover the fundamental concepts behind " ++ story.title
       ++ ". This chunk explores the basics and sets the foundation for deeper understanding."
     image := getFallbackImage "abstract concept idea light bulb" 0
     imageKeywords := some "abstract concept idea light bulb" },
   { id := 2
     title := "Historical Context"
     content := "Learn about the evolution and background of " ++ story.title
       ++ ". Understanding the past helps illuminate the present."
     image := getFallbackImage "vintage history timeline old" 0
     imageKeywords := some "vintage history timeline old" },
   { id := 3
     title := "Expert Perspective"
     content := "Industry leaders share their insights on " ++ story.title
       ++ ". Gain valuable knowledge from those at the forefront."
     image := getFallbackImage "professional expert business meeting" 0
     imageKeywords := some "professional expert business meeting" },
   { id := 4
     title := "Real-World Application"
     content := "See how " ++ story.title
       ++ " manifests in everyday life. Practical examples that bring theory to reality."
     image := getFallbackImage "everyday practical real world application" 0
     imageKeywords := some "everyday practical real world application" },
   { id := 5
     title := "Deep Dive"
     content := "An in-depth exploration of the most fascinating aspects of " ++ story.title
       ++ ". For those who want to go further."
     image := getFallbackImage "technical detail microscope close up" 0
     imageKeywords := some "technical detail microscope close up" }]

/-- Lines 215-252: one story's chunk phase.  The `try` covers the remote
call, the Recovery parse and the decode; on any of those failing, the
`catch` populates the story with the deterministic mock chunks instead. -/
def expandStory (env : GenEnv) (story : Story) (storyKw : String)
    (cache : PhotoCache) : Story × PhotoCache :=
  match (env.deepseek (chunkRequest story)).bind parseChunkRecords with
  | Except.ok records =>
    let r := buildChunks env.unsplash storyKw records cache
    ({ story with chunks := some r.1 }, r.2)
  | Except.error _ => ({ story with chunks := some (generateMockChunks story) }, cache)

/-- The phase-2 fan-out over the parsed story records (`Promise.all` keeps
the results in input order). -/
def runStories (env : GenEnv) : List StoryRecord → PhotoCache → List Story × PhotoCache
  | [], cache => ([], cache)
  | item :: rest, cache =>
    let b := buildStory env item cache
    let e := expandStory env b.1 (storyKeywordsOf item) b.2
    let rs := runStories env rest e.2
    (e.1 :: rs.1, rs.2)

/-- `generateStoriesWithChunks` (lines 165-271), results only (the progress
trace is modelled separately): phase 1 calls the chat endpoint with the
story-grouping messages and parses with Recovery; a phase-1 throw or parse
failure propagates (the outer `catch` rethrows); otherwise every parsed
record becomes a returned story. -/
def generateStoriesWithChunks (env : GenEnv) (urls : List String)
    (cache : PhotoCache) : Except String (List Story × PhotoCache) :=
  match (env.deepseek (generateStoriesMessages urls)).bind parseStoryRecords with
  | Except.error e => Except.error e
  | Except.ok records => Except.ok (runStories env records cache)

/-- `generateChunksFromStory` (lines 276-316): phase 2 for one known story,
no mock fallback — failures propagate; the per-chunk keyword chain here ends
in `story.imageKeywords || story.title`. -/
def generateChunksFromStory (env : GenEnv) (story : Story) (cache : PhotoCache) :
    Except String (List Chunk × PhotoCache) :=
  match (env.deepseek (chunkRequest story)).bind parseChunkRecords with
  | Except.error e => Except.error e
  | Except.ok records =>
    Except.ok (buildChunks env.unsplash (jsOr story.imageKeywords story.title) records cache)

/-! ### The progress-event trace
(contentGenerator.ts lines 172-264.)  The two `stories` events are emitted
before the fan-out.  During the fan-out each branch emits one `chunks` event
when its expansion starts (reading the shared `completedStories` counter)
and one when it completes (after incrementing the counter; no `await`
separates the increment from the emission, so the pair is atomic).  A
branch interleaving is a schedule: a list of (story index, step) pairs where
step `false` is the branch's start emission and step `true` its completion
emission; a schedule is well-formed when it is a permutation of the
canonical one (each branch occurring exactly once per step) in which every
branch's start precedes its completion. -/

/-- The progress phases. -/
inductive GenerationPhase where
  | stories : GenerationPhase
  | chunks : GenerationPhase
deriving DecidableEq, Repr

/-- One progress callback invocation. -/
structure GenerationProgress where
  phase : GenerationPhase
  current : Nat
  total : Nat
  storyTitle : Option String
deriving DecidableEq, Repr

/-- The phase-1 event pair (lines 173 and 185). -/
def storiesPhaseEvents : List GenerationProgress :=
  [⟨GenerationPhase.stories, 0, 1, none⟩, ⟨GenerationPhase.stories, 1, 1, none⟩]

/-- Replay a schedule against the shared `completedStories` counter `c`:
a start step emits the counter as is, a completion step increments it and
emits the new value (lines 208-213 and 254-260). -/
def chunkEventsGo (n : Nat) (titles : List String) :
    Nat → List (Nat × Bool) → List GenerationProgress
  | _, [] => []
  | c, step :: rest =>
    if step.2 then
      ⟨GenerationPhase.chunks, c + 1, n, titles.get? step.1⟩
        :: chunkEventsGo n titles (c + 1) rest
    else
      ⟨GenerationPhase.chunks, c, n, titles.get? step.1⟩
        :: chunkEventsGo n titles c rest

/-- The `chunks`-phase events of a run over the given story titles under a
given branch interleaving. -/
def chunkPhaseEvents (titles : List String) (sched : List (Nat × Bool)) :
    List GenerationProgress :=
  chunkEventsGo titles.length titles 0 sched

/-- The full progress trace of a `generateStoriesWithChunks` run whose phase
1 parsed the given story titles. -/
def progressTrace (titles : List String) (sched : List (Nat × Bool)) :
    List GenerationProgress :=
  storiesPhaseEvents ++ chunkPhaseEvents titles sched

/-- The canonical schedule: branch 0's two steps, then branch 1's, … (the
fully sequential interleaving). -/
def chunkSchedule : Nat → List (Nat × Bool)
  | 0 => []
  | n + 1 => chunkSchedule n ++ [(n, false), (n, true)]

/-! ### Concrete stubs for closed scenarios -/

/-- A fixed Unsplash photo used by concrete media-resolver scenarios. -/
def demoPhoto : UnsplashPhoto :=
  ⟨"p1", none, none,
   ⟨"https://img.example/raw", "https://img.example/full",
    "https://img.example/regular", "https://img.example/small",
    "https://img.example/thumb"⟩, "Jane", "jane"⟩

/-- A chat stub that answers the story-grouping request with one story and
throws on every chunk-expansion request. -/
def storyOnlyDeepseek : DeepseekRemote := fun msgs =>
  match msgs with
  | [_, u] =>
    if strStartsWith u.content "Based" then
      Except.ok "[\x7b\"id\":1,\"title\":\"T\",\"description\":\"D\",\"imageKeywords\":\"kw\",\"relatedUrls\":[]\x7d]"
    else Except.error "boom"
  | _ => Except.error "bad request"

/-- A concrete environment whose chunk phase always fails (and whose image
search always fails), exercising the mock-fallback path. -/
def mockPathEnv : GenEnv :=
  ⟨storyOnlyDeepseek, fun _ => Except.error "network error", 0⟩

/-- A concrete environment whose image search always finds `demoPhoto`. -/
def photoEnv : GenEnv :=
  ⟨storyOnlyDeepseek, fun _ => Except.ok [demoPhoto], 0⟩

/-! ### Shared lemmas -/

/-- On a miss, `getCachedPhotoUrl` computes `getPhotoUrl`, stores it, and
reports one remote search. -/
theorem getCachedPhotoUrl_miss (remote : UnsplashRemote) (keyword : String)
    (size : PhotoSize) (cache : PhotoCache)
    (hmiss : cacheLookup (photoCacheKey keyword size) cache = none) :
    getCachedPhotoUrl remote keyword size cache
      = (getPhotoUrl remote keyword size,
         (photoCacheKey keyword size, getPhotoUrl remote keyword size) :: cache, 1) := by
  simp only [getCachedPhotoUrl, hmiss]

/-- On a hit, `getCachedPhotoUrl` returns the cached value, stores nothing,
and issues no remote search. -/
theorem getCachedPhotoUrl_hit (remote : UnsplashRemote) (keyword : String)
    (size : PhotoSize) (cache : PhotoCache) (url : String)
    (hhit : cacheLookup (photoCacheKey keyword size) cache = some url) :
    getCachedPhotoUrl remote keyword size cache = (url, cache, 0) := by
  simp only [getCachedPhotoUrl, hhit]

/-- `getImageForKeywords` is the cached resolution at the default size. -/
theorem getImageForKeywords_eq (remote : UnsplashRemote) (keywords : String)
    (cache : PhotoCache) :
    getImageForKeywords remote keywords cache
      = ((getCachedPhotoUrl remote keywords PhotoSize.regular cache).1,
         (getCachedPhotoUrl remote keywords PhotoSize.regular cache).2.1) := rfl

/-- When the remote search threw or returned no results, `getPhotoUrl`
returns the deterministic fallback URL. -/
theorem getPhotoUrl_of_failure (remote : UnsplashRemote) (keyword : String)
    (size : PhotoSize)
    (h : (remote keyword).isOk = false ∨ remote keyword = Except.ok []) :
    getPhotoUrl remote keyword size = getFallbackImage keyword 0 := by
  unfold getPhotoUrl searchPhotos
  rcases h with h | h
  · cases hr : remote keyword with
    | error e => rfl
    | ok ps => rw [hr] at h; simp [Except.isOk, Except.toBool] at h
  · rw [h]

/-! ### The claims -/

/-- C1 (status: code bug).  The spec's truncation-tolerance property: for a
valid JSON array of at least two objects whose last element's closing brace
and closing bracket were cut off, `parseJSON` should return all elements but
the truncated one, without raising.  The code instead counts the dangling
element's open brace during the scan, truncates to the last fully closed
element, and then still appends that brace, producing text that is not valid
JSON — so the repair path fails in exactly the situation it was written for.
This theorem evaluates the code at the failing input
`[{"a":1},{"b":2` (the truncation of the valid two-element array
`[{"a":1},{"b":2}]`): the repair yields `[{"a":1}}]` and `parseJSON`
propagates a parse failure instead of returning `[{"a":1}]`. -/
theorem claim_C1_divergence :
    jsonParse "[\x7b\"a\":1\x7d,\x7b\"b\":2\x7d]"
        = some (Json.arr [Json.obj [("a", Json.num "1")], Json.obj [("b", Json.num "2")]])
      ∧ repairTruncatedJSON "[\x7b\"a\":1\x7d,\x7b\"b\":2" = "[\x7b\"a\":1\x7d\x7d]"
      ∧ jsonParse "[\x7b\"a\":1\x7d\x7d]" = none
      ∧ parseJSON "[\x7b\"a\":1\x7d,\x7b\"b\":2" = Except.error "[\x7b\"a\":1\x7d\x7d]" :=
  ⟨rfl, rfl, rfl, rfl⟩

/-- C5: `parseJSON` fails exactly when neither the cleaned response nor its
repair parses as JSON (that is, only when repair cannot produce
syntactically valid JSON), and the propagated failure carries the repaired
text (the code's `Repaired JSON:` diagnostic emitted just before the failing
re-parse; the final `JSON.parse` failure then propagates). -/
theorem claim_C5 (response : String) :
    ((parseJSON response).isOk = false ↔
      jsonParse (cleanResponse response) = none
        ∧ jsonParse (repairTruncatedJSON (cleanResponse response)) = none)
    ∧ ∀ e, parseJSON response = Except.error e →
        e = repairTruncatedJSON (cleanResponse response) := by
  constructor
  · cases h1 : jsonParse (cleanResponse response) with
    | some v => simp [parseJSON, h1, Except.isOk, Except.toBool]
    | none =>
      cases h2 : jsonParse (repairTruncatedJSON (cleanResponse response)) with
      | some v => simp [parseJSON, h1, h2, Except.isOk, Except.toBool]
      | none => simp [parseJSON, h1, h2, Except.isOk, Except.toBool]
  · intro e he
    simp only [parseJSON] at he
    cases h1 : jsonParse (cleanResponse response) with
    | some v => rw [h1] at he; simp at he
    | none =>
      rw [h1] at he
      cases h2 : jsonParse (repairTruncatedJSON (cleanResponse response)) with
      | some v => rw [h2] at he; simp at he
      | none =>
        rw [h2] at he
        injection he with h
        exact h.symm

/-- Witness for C5 at the unrepairable input `not json {{{`: the failure
value is the repaired text. -/
theorem claim_C5_witness :
    "[not json \x7b\x7b\x7b\x7d\x7d\x7d]"
      = repairTruncatedJSON (cleanResponse "not json \x7b\x7b\x7b") :=
  (claim_C5 "not json \x7b\x7b\x7b").2 "[not json \x7b\x7b\x7b\x7d\x7d\x7d]" rfl

/-- C9 (status: corrected).  As stated, the claim promises that whenever the
scan finds no fully closed top-level element, `parseJSON` returns the
completed partial element.  The repair does keep the partial element and
close it, but the closure need not be valid JSON: at `[{"a":` (truncation
right after a colon) the repair produces `[{"a":}]` and `parseJSON` raises
instead of returning the element.  The scan facts confirm the input is in
the claim's scope (no fully closed element, unbalanced depths). -/
theorem claim_C9_counterexample :
    (repairScan (ensureArrayStart (jsTrim "[\x7b\"a\":")).data).lastGoodIndex = 0
      ∧ (repairScan (ensureArrayStart (jsTrim "[\x7b\"a\":")).data).braceCount = 1
      ∧ repairTruncatedJSON "[\x7b\"a\":" = "[\x7b\"a\":\x7d]"
      ∧ parseJSON "[\x7b\"a\":" = Except.error "[\x7b\"a\":\x7d]" :=
  ⟨rfl, rfl, rfl, rfl⟩

/-- C9 as amended: when the scan finds unbalanced depths and no fully closed
top-level element (`lastGoodIndex` still 0), the repair keeps the dangling
partial element in full — no truncation — and appends the scan's final count
of closing braces and a closing bracket (unless one already ends the text);
`parseJSON` then returns the completed partial element when that closure is
valid JSON, as at `[{"a":1`, and raises otherwise. -/
theorem claim_C9_amended :
    (∀ s : String,
      (repairScan (ensureArrayStart (jsTrim s)).data).lastGoodIndex = 0 →
      ((repairScan (ensureArrayStart (jsTrim s)).data).braceCount > 0
        ∨ (repairScan (ensureArrayStart (jsTrim s)).data).bracketCount > 0) →
      repairTruncatedJSON s
        = closeUnbalanced (ensureArrayStart (jsTrim s))
            (repairScan (ensureArrayStart (jsTrim s)).data).braceCount.toNat)
    ∧ parseJSON "[\x7b\"a\":1" = Except.ok (Json.arr [Json.obj [("a", Json.num "1")]]) := by
  constructor
  · intro s hlast hunb
    unfold repairTruncatedJSON
    rw [if_pos hunb, hlast]
    rfl
  · rfl

/-- Witness for C9's amended claim at `[{"a":1`: the whole partial element
is kept and closed, and parsing succeeds on the closure. -/
theorem claim_C9_amended_witness :
    repairTruncatedJSON "[\x7b\"a\":1" = "[\x7b\"a\":1\x7d]" := by
  have h := claim_C9_amended.1 "[\x7b\"a\":1" rfl (Or.inl (by decide))
  exact h.trans rfl

/-- C3 (status: corrected).  The claim says a fallback URL is never
memoized and a later call retries the remote search.  In the code
`getPhotoUrl` absorbs every failure and returns the fallback URL, and
`getCachedPhotoUrl` stores whatever `getPhotoUrl` returned — so after a
failed search for `cat` the cache does hold the fallback under
`cat-regular`, and a subsequent call returns that cached fallback with no
remote search (count 0) even though the remote now has a real photo. -/
theorem claim_C3_counterexample :
    cacheLookup (photoCacheKey "cat" PhotoSize.regular)
        (getCachedPhotoUrl (fun _ => Except.error "network error") "cat"
          PhotoSize.regular []).2.1
      = some (getFallbackImage "cat" 0)
    ∧ getCachedPhotoUrl (fun _ => Except.ok [demoPhoto]) "cat" PhotoSize.regular
        (getCachedPhotoUrl (fun _ => Except.error "network error") "cat"
          PhotoSize.regular []).2.1
      = (getFallbackImage "cat" 0,
         (getCachedPhotoUrl (fun _ => Except.error "network error") "cat"
           PhotoSize.regular []).2.1, 0) :=
  ⟨rfl, rfl⟩

/-- C3 as amended: on a cache miss `getCachedPhotoUrl` issues one remote
search and memoizes whatever `getPhotoUrl` produced — the fallback URL
included, when the remote search failed or was empty — and a subsequent call
for the same keyword and size returns the cached value with no remote
search, whatever the remote would now answer. -/
theorem claim_C3_amended (remote : UnsplashRemote) (keyword : String)
    (size : PhotoSize) (cache : PhotoCache)
    (hmiss : cacheLookup (photoCacheKey keyword size) cache = none) :
    (getCachedPhotoUrl remote keyword size cache).2.2 = 1
    ∧ cacheLookup (photoCacheKey keyword size)
        (getCachedPhotoUrl remote keyword size cache).2.1
        = some (getPhotoUrl remote keyword size)
    ∧ (((remote keyword).isOk = false ∨ remote keyword = Except.ok []) →
        cacheLookup (photoCacheKey keyword size)
          (getCachedPhotoUrl remote keyword size cache).2.1
          = some (getFallbackImage keyword 0))
    ∧ ∀ remote2 : UnsplashRemote,
        getCachedPhotoUrl remote2 keyword size
            (getCachedPhotoUrl remote keyword size cache).2.1
          = ((getCachedPhotoUrl remote keyword size cache).1,
             (getCachedPhotoUrl remote keyword size cache).2.1, 0) := by
  rw [getCachedPhotoUrl_miss remote keyword size cache hmiss]
  have hlook : cacheLookup (photoCacheKey keyword size)
      ((photoCacheKey keyword size, getPhotoUrl remote keyword size) :: cache)
      = some (getPhotoUrl remote keyword size) := by
    simp [cacheLookup]
  refine ⟨rfl, hlook, ?_, ?_⟩
  · intro hfail
    rw [hlook, getPhotoUrl_of_failure remote keyword size hfail]
  · intro remote2
    exact getCachedPhotoUrl_hit remote2 keyword size _ _ hlook

/-- Witness for C3's amended claim: concrete failed lookup for `dog` at
size `small`, starting from the empty cache. -/
theorem claim_C3_amended_witness :
    (getCachedPhotoUrl (fun _ => Except.error "down") "dog" PhotoSize.small []).2.2 = 1
    ∧ cacheLookup (photoCacheKey "dog" PhotoSize.small)
        (getCachedPhotoUrl (fun _ => Except.error "down") "dog" PhotoSize.small []).2.1
        = some (getPhotoUrl (fun _ => Except.error "down") "dog" PhotoSize.small) := by
  have h := claim_C3_amended (fun _ => Except.error "down") "dog" PhotoSize.small [] rfl
  exact ⟨h.1, h.2.1⟩

/-- C6: image resolution never raises — `getImageForKeywords` always
produces some URL string: a cached entry, the first search result's sized
URL, or the deterministic fallback; and on the uncached path every remote
failure (thrown search or empty result list) is absorbed into the fallback
URL.  (In the embedding, the thrown-exception channel is the `Except` value
of the remote oracle; `getPhotoUrl`'s catch-all makes everything above it
total, which is the never-raises contract.) -/
theorem claim_C6 (remote : UnsplashRemote) (keywords : String) (cache : PhotoCache) :
    ((getImageForKeywords remote keywords cache).1 = getFallbackImage keywords 0
      ∨ (∃ p ps, remote keywords = Except.ok (p :: ps)
          ∧ (getImageForKeywords remote keywords cache).1 = sizedUrl p PhotoSize.regular)
      ∨ (∃ url, cacheLookup (photoCacheKey keywords PhotoSize.regular) cache = some url
          ∧ (getImageForKeywords remote keywords cache).1 = url))
    ∧ (cacheLookup (photoCacheKey keywords PhotoSize.regular) cache = none →
        ((remote keywords).isOk = false ∨ remote keywords = Except.ok []) →
        (getImageForKeywords remote keywords cache).1 = getFallbackImage keywords 0) := by
  constructor
  · cases hc : cacheLookup (photoCacheKey keywords PhotoSize.regular) cache with
    | some url =>
      refine Or.inr (Or.inr ⟨url, rfl, ?_⟩)
      rw [getImageForKeywords_eq,
        getCachedPhotoUrl_hit remote keywords PhotoSize.regular cache url hc]
    | none =>
      rw [getImageForKeywords_eq,
        getCachedPhotoUrl_miss remote keywords PhotoSize.regular cache hc]
      cases hr : remote keywords with
      | error e =>
        exact Or.inl (by simp only [getPhotoUrl, searchPhotos, hr])
      | ok ps =>
        cases ps with
        | nil => exact Or.inl (by simp only [getPhotoUrl, searchPhotos, hr])
        | cons p rest =>
          exact Or.inr (Or.inl ⟨p, rest, rfl,
            by simp only [getPhotoUrl, searchPhotos, hr]⟩)
  · intro hc hfail
    rw [getImageForKeywords_eq,
      getCachedPhotoUrl_miss remote keywords PhotoSize.regular cache hc]
    exact getPhotoUrl_of_failure remote keywords PhotoSize.regular hfail

/-- Witness for C6: a thrown remote search for `sunset` from an empty cache
resolves to the fallback URL. -/
theorem claim_C6_witness :
    (getImageForKeywords (fun _ => Except.error "network error") "sunset" []).1
      = getFallbackImage "sunset" 0 :=
  (claim_C6 (fun _ => Except.error "network error") "sunset" []).2 rfl (Or.inl rfl)

/-- C10: the chunk-expansion request is independent of the
`_storyImageKeywords` argument — any two values (including `none`, the
TypeScript `undefined`) produce identical message sequences — even though
the orchestrator's `chunkRequest` passes the story's `imageKeywords` into
that parameter. -/
theorem claim_C10 :
    (∀ (storyTitle storyDescription : String) (relatedUrls : List String)
        (k1 k2 : Option String),
        generateChunksMessages storyTitle storyDescription relatedUrls k1
          = generateChunksMessages storyTitle storyDescription relatedUrls k2)
    ∧ ∀ story : Story,
        chunkRequest story
          = generateChunksMessages story.title story.description story.relatedUrls none :=
  ⟨fun _ _ _ _ _ => rfl, fun _ => rfl⟩

/-- C8: the story-grouping user prompt reads only the first `MAX_URLS` (50)
input URLs and the total count; with more than 50 URLs it contains the
statement `(Showing 50 of N URLs for analysis)` where `N` is the total; with
at most 50 it is exactly the note-free prompt over the whole list. -/
theorem claim_C8 :
    (∀ urls urls2 : List String,
        urls.take MAX_URLS = urls2.take MAX_URLS → urls.length = urls2.length →
        generateStoriesUserPrompt urls = generateStoriesUserPrompt urls2)
    ∧ (∀ urls : List String, MAX_URLS < urls.length →
        ∃ pre post, generateStoriesUserPrompt urls
          = pre ++ ("(Showing 50 of " ++ toString urls.length ++ " URLs for analysis)") ++ post)
    ∧ (∀ urls : List String, urls.length ≤ MAX_URLS →
        generateStoriesUserPrompt urls = storiesUserPromptUntruncated urls) := by
  refine ⟨?_, ?_, ?_⟩
  · intro urls urls2 ht hl
    simp only [generateStoriesUserPrompt]
    rw [ht, hl]
  · intro urls h
    refine ⟨storiesPromptHead,
      storiesPromptMid ++ numberedUrls (urls.take MAX_URLS) ++ storiesPromptTail, ?_⟩
    simp only [generateStoriesUserPrompt]
    rw [if_pos h]
    simp only [showingNote, String.append_assoc]
    rfl
  · intro urls h
    simp only [generateStoriesUserPrompt, storiesUserPromptUntruncated]
    rw [if_neg (by omega), List.take_of_length_le h]
    rfl

/-- Witness for C8: a 51-URL list gets the note with `N = 51`; a 2-URL list
yields the note-free prompt. -/
theorem claim_C8_witness :
    (∃ pre post,
      generateStoriesUserPrompt (List.replicate 51 "https://a.example/x")
        = pre ++ ("(Showing 50 of "
            ++ toString (List.replicate 51 "https://a.example/x").length
            ++ " URLs for analysis)") ++ post)
    ∧ generateStoriesUserPrompt ["https://a.example/x", "https://b.example/y"]
        = storiesUserPromptUntruncated ["https://a.example/x", "https://b.example/y"] :=
  ⟨claim_C8.2.1 (List.replicate 51 "https://a.example/x") (by decide),
   claim_C8.2.2 ["https://a.example/x", "https://b.example/y"] (by decide)⟩

/-- `runStories` yields one story per parsed record. -/
theorem runStories_length (env : GenEnv) :
    ∀ (records : List StoryRecord) (cache : PhotoCache),
      (runStories env records cache).1.length = records.length
  | [], _ => rfl
  | _ :: rest, cache => by
    simp only [runStories, List.length_cons]
    rw [runStories_length env rest]

/-- When a story's chunk pipeline (remote call, Recovery, decode) fails,
`expandStory` keeps the story and populates its chunks with the mock set. -/
theorem expandStory_of_error (env : GenEnv) (story : Story) (storyKw : String)
    (cache : PhotoCache) (e : String)
    (h : (env.deepseek (chunkRequest story)).bind parseChunkRecords = Except.error e) :
    expandStory env story storyKw cache
      = ({ story with chunks := some (generateMockChunks story) }, cache) := by
  simp only [expandStory, h]

/-- When a story's chunk pipeline succeeds, `expandStory` populates its
chunks from the parsed records with per-chunk images. -/
theorem expandStory_of_ok (env : GenEnv) (story : Story) (storyKw : String)
    (cache : PhotoCache) (records : List ChunkRecord)
    (h : (env.deepseek (chunkRequest story)).bind parseChunkRecords = Except.ok records) :
    expandStory env story storyKw cache
      = ({ story with chunks := some (buildChunks env.unsplash storyKw records cache).1 },
         (buildChunks env.unsplash storyKw records cache).2) := by
  simp only [expandStory, h]

/-- Every story returned by the fan-out has its chunks populated, and a
story whose own chunk pipeline fails carries exactly the mock chunks. -/
theorem runStories_mem (env : GenEnv) :
    ∀ (records : List StoryRecord) (cache : PhotoCache),
      ∀ st ∈ (runStories env records cache).1,
        (∃ cs, st.chunks = some cs)
        ∧ ∀ e, (env.deepseek (chunkRequest st)).bind parseChunkRecords = Except.error e →
            st.chunks = some (generateMockChunks st)
  | [], _, st, hst => absurd hst (by simp [runStories])
  | item :: rest, cache, st, hst => by
    simp only [runStories, List.mem_cons] at hst
    rcases hst with hst | hst
    · subst hst
      cases hpipe : (env.deepseek
          (chunkRequest (buildStory env item cache).1)).bind parseChunkRecords with
      | ok recs =>
        rw [expandStory_of_ok env _ _ _ recs hpipe]
        refine ⟨⟨_, rfl⟩, ?_⟩
        intro e he
        rw [show chunkRequest
            { (buildStory env item cache).1 with
              chunks := some (buildChunks env.unsplash (storyKeywordsOf item) recs
                (buildStory env item cache).2).1 }
            = chunkRequest (buildStory env item cache).1 from rfl] at he
        rw [hpipe] at he
        exact absurd he (by simp)
      | error e0 =>
        rw [expandStory_of_error env _ _ _ e0 hpipe]
        exact ⟨⟨_, rfl⟩, fun e he => rfl⟩
    · exact runStories_mem env rest _ st hst

/-- C2: whenever phase 1 (story grouping and its parse) yields `records`,
the run resolves with exactly as many stories; any story whose own chunk
pipeline fails still completes, its chunks being exactly the deterministic
mock set; the call rejects only with phase 1's own failure; and the mock
set is five chunks whose titles are the fixed template set and whose
contents are parameterized by the story's title. -/
theorem claim_C2 (env : GenEnv) (urls : List String) (cache : PhotoCache) :
    (∀ records,
      (env.deepseek (generateStoriesMessages urls)).bind parseStoryRecords
          = Except.ok records →
      ∃ stories cache2,
        generateStoriesWithChunks env urls cache = Except.ok (stories, cache2)
        ∧ stories.length = records.length
        ∧ ∀ st ∈ stories,
            ∀ e, (env.deepseek (chunkRequest st)).bind parseChunkRecords
                = Except.error e →
              st.chunks = some (generateMockChunks st))
    ∧ (∀ e, generateStoriesWithChunks env urls cache = Except.error e →
        (env.deepseek (generateStoriesMessages urls)).bind parseStoryRecords
          = Except.error e)
    ∧ (∀ story : Story,
        (generateMockChunks story).length = 5
        ∧ (generateMockChunks story).map Chunk.title
            = ["Key Insight #1", "Historical Context", "Expert Perspective",
               "Real-World Application", "Deep Dive"]
        ∧ ∀ c ∈ generateMockChunks story,
            ∃ pre post, c.content = pre ++ story.title ++ post) := by
  refine ⟨?_, ?_, ?_⟩
  · intro records h1
    refine ⟨(runStories env records cache).1, (runStories env records cache).2, ?_, ?_, ?_⟩
    · simp only [generateStoriesWithChunks, h1]
    · exact runStories_length env records cache
    · intro st hst e he
      exact (runStories_mem env records cache st hst).2 e he
  · intro e he
    cases h1 : (env.deepseek (generateStoriesMessages urls)).bind parseStoryRecords with
    | ok records => rw [generateStoriesWithChunks, h1] at he; exact absurd he (by simp)
    | error e0 =>
      rw [generateStoriesWithChunks, h1] at he
      injection he with h
      rw [← h]
  · intro story
    refine ⟨rfl, rfl, ?_⟩
    intro c hc
    simp only [generateMockChunks, List.mem_cons, List.not_mem_nil, or_false] at hc
    rcases hc with hc | hc | hc | hc | hc <;> subst hc
    · exact ⟨"Discover the fundamental concepts behind ",
        ". This chunk explores the basics and sets the foundation for deeper understanding.",
        rfl⟩
    · exact ⟨"Learn about the evolution and background of ",
        ". Understanding the past helps illuminate the present.", rfl⟩
    · exact ⟨"Industry leaders share their insights on ",
        ". Gain valuable knowledge from those at the forefront.", rfl⟩
    · exact ⟨"See how ",
        " manifests in everyday life. Practical examples that bring theory to reality.", rfl⟩
    · exact ⟨"An in-depth exploration of the most fascinating aspects of ",
        ". For those who want to go further.", rfl⟩

/-- Witness for C2: the `mockPathEnv` run — phase 1 parses one story record,
every chunk request throws, and the returned story carries the mock chunks. -/
theorem claim_C2_witness :
    ∃ stories cache2,
      generateStoriesWithChunks mockPathEnv [] [] = Except.ok (stories, cache2)
      ∧ stories.length
          = [(⟨1, "T", "D", some "kw", none, some []⟩ : StoryRecord)].length
      ∧ ∀ st ∈ stories,
          ∀ e, (mockPathEnv.deepseek (chunkRequest st)).bind parseChunkRecords
              = Except.error e →
            st.chunks = some (generateMockChunks st) :=
  (claim_C2 mockPathEnv [] []).1 [⟨1, "T", "D", some "kw", none, some []⟩] rfl

/-- The deterministic fallback URL is never the empty string. -/
theorem getFallbackImage_ne_empty (keyword : String) (index : Nat) :
    getFallbackImage keyword index ≠ "" := by
  intro h
  have hlen := congrArg String.length h
  have h1 : ("https://source.unsplash.com/800x600/?" : String).length = 37 := rfl
  have h2 : ("&sig=" : String).length = 5 := rfl
  have h3 : ("-" : String).length = 1 := rfl
  have h4 : ("" : String).length = 0 := rfl
  simp only [getFallbackImage, String.length_append, h1, h2, h3, h4] at hlen
  omega

/-- When every photo the remote can return has a nonempty `regular` URL,
`getPhotoUrl` at the default size is nonempty. -/
theorem getPhotoUrl_regular_ne_empty (remote : UnsplashRemote)
    (hremote : ∀ q photos, remote q = Except.ok photos →
      ∀ p ∈ photos, sizedUrl p PhotoSize.regular ≠ "")
    (keyword : String) :
    getPhotoUrl remote keyword PhotoSize.regular ≠ "" := by
  unfold getPhotoUrl searchPhotos
  cases hr : remote keyword with
  | error e => exact getFallbackImage_ne_empty keyword 0
  | ok ps =>
    cases ps with
    | nil => exact getFallbackImage_ne_empty keyword 0
    | cons p rest => exact hremote keyword (p :: rest) hr p (List.mem_cons_self p rest)

/-- One resolver call keeps the no-empty-URL cache invariant and returns a
nonempty URL. -/
theorem getImageForKeywords_ne_empty (remote : UnsplashRemote)
    (hremote : ∀ q photos, remote q = Except.ok photos →
      ∀ p ∈ photos, sizedUrl p PhotoSize.regular ≠ "")
    (keywords : String) (cache : PhotoCache)
    (hcache : ∀ k v, cacheLookup k cache = some v → v ≠ "") :
    (getImageForKeywords remote keywords cache).1 ≠ ""
    ∧ ∀ k v, cacheLookup k (getImageForKeywords remote keywords cache).2 = some v →
        v ≠ "" := by
  rw [getImageForKeywords_eq]
  cases hc : cacheLookup (photoCacheKey keywords PhotoSize.regular) cache with
  | some url =>
    rw [getCachedPhotoUrl_hit remote keywords PhotoSize.regular cache url hc]
    exact ⟨hcache _ url hc, hcache⟩
  | none =>
    rw [getCachedPhotoUrl_miss remote keywords PhotoSize.regular cache hc]
    refine ⟨getPhotoUrl_regular_ne_empty remote hremote keywords, ?_⟩
    intro k v h
    simp only [cacheLookup] at h
    split at h
    · cases h
      exact getPhotoUrl_regular_ne_empty remote hremote keywords
    · exact hcache k v h

/-- `buildChunks` resolves a nonempty image for every assembled chunk and
keeps the cache invariant. -/
theorem buildChunks_ne_empty (remote : UnsplashRemote)
    (hremote : ∀ q photos, remote q = Except.ok photos →
      ∀ p ∈ photos, sizedUrl p PhotoSize.regular ≠ "")
    (storyKw : String) :
    ∀ (records : List ChunkRecord) (cache : PhotoCache),
      (∀ k v, cacheLookup k cache = some v → v ≠ "") →
      (∀ c ∈ (buildChunks remote storyKw records cache).1, c.image ≠ "")
      ∧ ∀ k v, cacheLookup k (buildChunks remote storyKw records cache).2 = some v →
          v ≠ ""
  | [], cache, hcache => ⟨by simp [buildChunks], hcache⟩
  | r :: rs, cache, hcache => by
    have hstep := getImageForKeywords_ne_empty remote hremote
      (chunkKeywordsOf r storyKw) cache hcache
    have hrest := buildChunks_ne_empty remote hremote storyKw rs
      (getImageForKeywords remote (chunkKeywordsOf r storyKw) cache).2 hstep.2
    constructor
    · intro c hcmem
      simp only [buildChunks, List.mem_cons] at hcmem
      rcases hcmem with hcmem | hcmem
      · subst hcmem
        exact hstep.1
      · exact hrest.1 c hcmem
    · exact hrest.2

/-- Every chunk of the mock set carries a (nonempty) fallback image. -/
theorem generateMockChunks_ne_empty (story : Story) :
    ∀ c ∈ generateMockChunks story, c.image ≠ "" := by
  intro c hc
  simp only [generateMockChunks, List.mem_cons, List.not_mem_nil, or_false] at hc
  rcases hc with hc | hc | hc | hc | hc <;> subst hc <;>
    exact getFallbackImage_ne_empty _ 0

/-- One story branch populates chunks with nonempty images (remote path or
mock path) and keeps the cache invariant. -/
theorem expandStory_ne_empty (env : GenEnv)
    (hremote : ∀ q photos, env.unsplash q = Except.ok photos →
      ∀ p ∈ photos, sizedUrl p PhotoSize.regular ≠ "")
    (story : Story) (storyKw : String) (cache : PhotoCache)
    (hcache : ∀ k v, cacheLookup k cache = some v → v ≠ "") :
    (∃ cs, (expandStory env story storyKw cache).1.chunks = some cs
        ∧ ∀ c ∈ cs, c.image ≠ "")
    ∧ ∀ k v, cacheLookup k (expandStory env story storyKw cache).2 = some v →
        v ≠ "" := by
  cases hpipe : (env.deepseek (chunkRequest story)).bind parseChunkRecords with
  | ok recs =>
    rw [expandStory_of_ok env story storyKw cache recs hpipe]
    have hbuild := buildChunks_ne_empty env.unsplash hremote storyKw recs cache hcache
    exact ⟨⟨_, rfl, hbuild.1⟩, hbuild.2⟩
  | error e =>
    rw [expandStory_of_error env story storyKw cache e hpipe]
    exact ⟨⟨_, rfl, generateMockChunks_ne_empty story⟩, hcache⟩

/-- `buildStory` keeps the cache invariant. -/
theorem buildStory_cache (env : GenEnv)
    (hremote : ∀ q photos, env.unsplash q = Except.ok photos →
      ∀ p ∈ photos, sizedUrl p PhotoSize.regular ≠ "")
    (item : StoryRecord) (cache : PhotoCache)
    (hcache : ∀ k v, cacheLookup k cache = some v → v ≠ "") :
    ∀ k v, cacheLookup k (buildStory env item cache).2 = some v → v ≠ "" := by
  have h := getImageForKeywords_ne_empty env.unsplash hremote
    (storyKeywordsOf item) cache hcache
  exact h.2

/-- Every story of the fan-out has populated chunks with nonempty images. -/
theorem runStories_ne_empty (env : GenEnv)
    (hremote : ∀ q photos, env.unsplash q = Except.ok photos →
      ∀ p ∈ photos, sizedUrl p PhotoSize.regular ≠ "") :
    ∀ (records : List StoryRecord) (cache : PhotoCache),
      (∀ k v, cacheLookup k cache = some v → v ≠ "") →
      (∀ st ∈ (runStories env records cache).1,
        ∃ cs, st.chunks = some cs ∧ ∀ c ∈ cs, c.image ≠ "")
      ∧ ∀ k v, cacheLookup k (runStories env records cache).2 = some v → v ≠ ""
  | [], cache, hcache => ⟨by simp [runStories], hcache⟩
  | item :: rest, cache, hcache => by
    have hb := buildStory_cache env hremote item cache hcache
    have he := expandStory_ne_empty env hremote (buildStory env item cache).1
      (storyKeywordsOf item) (buildStory env item cache).2 hb
    have hrest := runStories_ne_empty env hremote rest _ he.2
    constructor
    · intro st hst
      simp only [runStories, List.mem_cons] at hst
      rcases hst with hst | hst
      · subst hst
        exact he.1
      · exact hrest.1 st hst
    · exact hrest.2

/-- C7: in every pipeline result — `generateStoriesWithChunks` (remote or
mock path) or `generateChunksFromStory` — once the chunks field is
populated, every chunk's `image` is a resolved nonempty URL string: under
the environment assumptions that the remote search only ever returns photos
with nonempty `regular` URLs and the cache holds no empty values, every
returned story has `chunks` populated and every chunk's image nonempty
(the mock path uses the always-nonempty offline fallback URL). -/
theorem claim_C7 (env : GenEnv) (cache : PhotoCache)
    (hremote : ∀ q photos, env.unsplash q = Except.ok photos →
      ∀ p ∈ photos, sizedUrl p PhotoSize.regular ≠ "")
    (hcache : ∀ k v, cacheLookup k cache = some v → v ≠ "") :
    (∀ urls stories cache2,
      generateStoriesWithChunks env urls cache = Except.ok (stories, cache2) →
      ∀ st ∈ stories, ∃ cs, st.chunks = some cs ∧ ∀ c ∈ cs, c.image ≠ "")
    ∧ ∀ story cs cache2,
        generateChunksFromStory env story cache = Except.ok (cs, cache2) →
        ∀ c ∈ cs, c.image ≠ "" := by
  constructor
  · intro urls stories cache2 hrun st hst
    cases h1 : (env.deepseek (generateStoriesMessages urls)).bind parseStoryRecords with
    | error e => rw [generateStoriesWithChunks, h1] at hrun; exact absurd hrun (by simp)
    | ok records =>
      rw [generateStoriesWithChunks, h1] at hrun
      injection hrun with hrun
      have hfst : (runStories env records cache).1 = stories :=
        congrArg Prod.fst hrun
      rw [← hfst] at hst
      exact (runStories_ne_empty env hremote records cache hcache).1 st hst
  · intro story cs cache2 hrun c hc
    cases hpipe : (env.deepseek (chunkRequest story)).bind parseChunkRecords with
    | error e => rw [generateChunksFromStory, hpipe] at hrun; exact absurd hrun (by simp)
    | ok recs =>
      rw [generateChunksFromStory, hpipe] at hrun
      injection hrun with hrun
      have hfst : (buildChunks env.unsplash (jsOr story.imageKeywords story.title)
          recs cache).1 = cs := congrArg Prod.fst hrun
      rw [← hfst] at hc
      exact (buildChunks_ne_empty env.unsplash hremote
        (jsOr story.imageKeywords story.title) recs cache hcache).1 c hc

/-- Witness for C7: in the concrete `photoEnv` run (every search finds
`demoPhoto`, whose `regular` URL is nonempty; starting from the empty
cache), the story returned for the parsed record has populated chunks with
nonempty images. -/
theorem claim_C7_witness :
    ∃ cs,
      ((runStories photoEnv [⟨1, "T", "D", some "kw", none, some []⟩] []).1.get
          ⟨0, by decide⟩).chunks = some cs
      ∧ ∀ c ∈ cs, c.image ≠ "" := by
  have happ := (claim_C7 photoEnv []
    (by
      intro q photos h p hp
      simp only [photoEnv] at h
      injection h with h
      subst h
      simp only [List.mem_singleton] at hp
      subst hp
      intro hreg
      simp [demoPhoto, sizedUrl] at hreg)
    (by intro k v h; simp [cacheLookup] at h)).1 []
    (runStories photoEnv [⟨1, "T", "D", some "kw", none, some []⟩] []).1
    (runStories photoEnv [⟨1, "T", "D", some "kw", none, some []⟩] []).2
    rfl
    ((runStories photoEnv [⟨1, "T", "D", some "kw", none, some []⟩] []).1.get
      ⟨0, by decide⟩)
    (List.get_mem _ _ _)
  exact happ

/-- The replay emits exactly one event per schedule step. -/
theorem chunkEventsGo_length (n : Nat) (titles : List String) :
    ∀ (sched : List (Nat × Bool)) (c : Nat),
      (chunkEventsGo n titles c sched).length = sched.length
  | [], _ => rfl
  | step :: rest, c => by
    simp only [chunkEventsGo]
    split <;> simp only [List.length_cons, chunkEventsGo_length n titles rest]

/-- Every replayed event is a `chunks` event with total `n` and a current
at least the counter the replay started from. -/
theorem chunkEventsGo_mem (n : Nat) (titles : List String) :
    ∀ (sched : List (Nat × Bool)) (c : Nat) (e : GenerationProgress),
      e ∈ chunkEventsGo n titles c sched →
      e.phase = GenerationPhase.chunks ∧ e.total = n ∧ c ≤ e.current
  | [], _, e, he => absurd he (by simp [chunkEventsGo])
  | step :: rest, c, e, he => by
    simp only [chunkEventsGo] at he
    split at he
    · rcases List.mem_cons.mp he with h | h
      · subst h; exact ⟨rfl, rfl, Nat.le_succ c⟩
      · have ht := chunkEventsGo_mem n titles rest (c + 1) e h
        exact ⟨ht.1, ht.2.1, Nat.le_of_succ_le ht.2.2⟩
    · rcases List.mem_cons.mp he with h | h
      · subst h; exact ⟨rfl, rfl, Nat.le_refl c⟩
      · exact chunkEventsGo_mem n titles rest c e h

/-- The emitted currents are monotonically non-decreasing: each step emits
the counter value after the step, and the counter never decreases. -/
theorem chunkEventsGo_chain (n : Nat) (titles : List String) :
    ∀ (sched : List (Nat × Bool)) (c : Nat),
      List.Chain' (fun a b => a.current ≤ b.current) (chunkEventsGo n titles c sched)
  | [], _ => List.chain'_nil
  | step :: rest, c => by
    simp only [chunkEventsGo]
    split
    · refine List.chain'_cons'.mpr ⟨?_, chunkEventsGo_chain n titles rest (c + 1)⟩
      intro b hb
      exact (chunkEventsGo_mem n titles rest (c + 1) b
        (List.mem_of_mem_head? hb)).2.2
    · refine List.chain'_cons'.mpr ⟨?_, chunkEventsGo_chain n titles rest c⟩
      intro b hb
      exact (chunkEventsGo_mem n titles rest c b (List.mem_of_mem_head? hb)).2.2

/-- The canonical schedule has two steps per branch. -/
theorem chunkSchedule_length : ∀ n : Nat, (chunkSchedule n).length = 2 * n
  | 0 => rfl
  | n + 1 => by
    rw [chunkSchedule, List.length_append, chunkSchedule_length n]
    simp only [List.length_cons, List.length_nil]
    omega

/-- Canonical schedule steps name branches below `n`. -/
theorem chunkSchedule_mem : ∀ (n : Nat) (p : Nat × Bool), p ∈ chunkSchedule n → p.1 < n
  | 0, p, hp => absurd hp (by simp [chunkSchedule])
  | n + 1, p, hp => by
    simp only [chunkSchedule, List.mem_append, List.mem_cons, List.not_mem_nil,
      or_false] at hp
    rcases hp with hp | hp | hp
    · exact Nat.lt_succ_of_lt (chunkSchedule_mem n p hp)
    · subst hp; exact Nat.lt_succ_self n
    · subst hp; exact Nat.lt_succ_self n

/-- The canonical schedule has no duplicate steps. -/
theorem chunkSchedule_nodup : ∀ n : Nat, (chunkSchedule n).Nodup
  | 0 => List.nodup_nil
  | n + 1 => by
    rw [chunkSchedule]
    refine List.Nodup.append (chunkSchedule_nodup n) (by simp) ?_
    intro a ha hb
    have h1 := chunkSchedule_mem n a ha
    have h2 : a.1 = n := by
      simp only [List.mem_cons, List.not_mem_nil, or_false] at hb
      rcases hb with hb | hb <;> rw [hb]
    omega

/-- The canonical schedule has `n` completion steps. -/
theorem chunkSchedule_countP : ∀ n : Nat, (chunkSchedule n).countP (fun p => p.2) = n
  | 0 => rfl
  | n + 1 => by
    rw [chunkSchedule, List.countP_append, chunkSchedule_countP n]
    simp [List.countP_cons]

/-- Dropping the head keeps the last element of a list with a nonempty
tail. -/
theorem getLast?_cons_of_ne_nil {α : Type} (a : α) (l : List α) (h : l ≠ []) :
    (a :: l).getLast? = l.getLast? := by
  cases l with
  | nil => exact absurd rfl h
  | cons b t => exact List.getLast?_cons_cons

/-- The last replayed event's current is the final counter: the start
counter plus the number of completion steps replayed. -/
theorem chunkEventsGo_getLast (n : Nat) (titles : List String) :
    ∀ (sched : List (Nat × Bool)) (c : Nat), sched ≠ [] →
      (chunkEventsGo n titles c sched).getLast?.map GenerationProgress.current
        = some (c + sched.countP (fun p => p.2))
  | [], _, h => absurd rfl h
  | [step], c, _ => by
    obtain ⟨i, b⟩ := step
    cases b with
    | true => simp [chunkEventsGo, List.countP_cons]
    | false => simp [chunkEventsGo, List.countP_cons]
  | step :: next :: rest, c, _ => by
    have hne : ∀ c2, chunkEventsGo n titles c2 (next :: rest) ≠ [] := by
      intro c2 h
      have hl := congrArg List.length h
      rw [chunkEventsGo_length] at hl
      simp at hl
    obtain ⟨i, b⟩ := step
    cases b with
    | true =>
      have hunf : chunkEventsGo n titles c ((i, true) :: next :: rest)
          = ⟨GenerationPhase.chunks, c + 1, n, titles.get? i⟩
              :: chunkEventsGo n titles (c + 1) (next :: rest) := rfl
      rw [hunf, getLast?_cons_of_ne_nil _ _ (hne (c + 1)),
        chunkEventsGo_getLast n titles (next :: rest) (c + 1) (by simp)]
      simp only [Option.some.injEq, List.countP_cons]
      simp
      omega
    | false =>
      have hunf : chunkEventsGo n titles c ((i, false) :: next :: rest)
          = ⟨GenerationPhase.chunks, c, n, titles.get? i⟩
              :: chunkEventsGo n titles c (next :: rest) := rfl
      rw [hunf, getLast?_cons_of_ne_nil _ _ (hne c),
        chunkEventsGo_getLast n titles (next :: rest) c (by simp)]
      simp only [Option.some.injEq, List.countP_cons]
      simp

/-- If `[x, y]` embeds in order into `y :: t` with `x ≠ y`, then `y`
occurs again in `t`. -/
theorem pair_sublist_head {α : Type} (x y : α) (t : List α)
    (h : List.Sublist [x, y] (y :: t)) (hne : x ≠ y) : y ∈ t := by
  cases h with
  | cons _ h2 => exact h2.subset (by simp)
  | cons₂ _ h2 => exact absurd rfl hne

/-- Under a well-formed schedule the first `chunks` event reports 0 (the
first emission is some branch's start, before any completion). -/
theorem chunkEvents_head (titles : List String) (sched : List (Nat × Bool))
    (hp : sched.Perm (chunkSchedule titles.length))
    (hs : ∀ i, i < titles.length → List.Sublist [(i, false), (i, true)] sched)
    (hn : 0 < titles.length) :
    (chunkPhaseEvents titles sched).head?.map GenerationProgress.current = some 0 := by
  cases hsched : sched with
  | nil =>
    exfalso
    have hl := hp.length_eq
    rw [hsched, chunkSchedule_length] at hl
    simp only [List.length_nil] at hl
    omega
  | cons step rest =>
    obtain ⟨i, b⟩ := step
    cases b with
    | true =>
      exfalso
      have hi : i < titles.length := by
        have hmem : (i, true) ∈ sched := by
          rw [hsched]; exact List.mem_cons_self _ _
        exact chunkSchedule_mem titles.length (i, true) (hp.subset hmem)
      have hsub := hs i hi
      rw [hsched] at hsub
      have hmem2 : (i, true) ∈ rest :=
        pair_sublist_head (i, false) (i, true) rest hsub (by simp)
      have hnd : sched.Nodup :=
        hp.nodup_iff.mpr (chunkSchedule_nodup titles.length)
      rw [hsched] at hnd
      exact absurd hmem2 (List.nodup_cons.mp hnd).1
    | false =>
      simp [chunkPhaseEvents, chunkEventsGo]

/-- C4: under any well-formed interleaving of the phase-2 branches, the
progress trace is the `stories` pair `(0 of 1, 1 of 1)` followed by exactly
`2 N` events of phase `chunks` (one per branch start, one per branch
completion), all with total `N`, whose currents are monotonically
non-decreasing from 0 up to `N`. -/
theorem claim_C4 (titles : List String) (sched : List (Nat × Bool))
    (hp : sched.Perm (chunkSchedule titles.length))
    (hs : ∀ i, i < titles.length → List.Sublist [(i, false), (i, true)] sched)
    (hn : 0 < titles.length) :
    progressTrace titles sched
        = ⟨GenerationPhase.stories, 0, 1, none⟩
          :: ⟨GenerationPhase.stories, 1, 1, none⟩ :: chunkPhaseEvents titles sched
    ∧ (chunkPhaseEvents titles sched).length = 2 * titles.length
    ∧ (∀ e ∈ chunkPhaseEvents titles sched,
        e.phase = GenerationPhase.chunks ∧ e.total = titles.length)
    ∧ List.Chain' (fun a b => a.current ≤ b.current) (chunkPhaseEvents titles sched)
    ∧ (chunkPhaseEvents titles sched).head?.map GenerationProgress.current = some 0
    ∧ (chunkPhaseEvents titles sched).getLast?.map GenerationProgress.current
        = some titles.length := by
  have hne : sched ≠ [] := by
    intro h
    have hl := hp.length_eq
    rw [h, chunkSchedule_length] at hl
    simp only [List.length_nil] at hl
    omega
  refine ⟨rfl, ?_, ?_, ?_, ?_, ?_⟩
  · rw [chunkPhaseEvents, chunkEventsGo_length, hp.length_eq, chunkSchedule_length]
  · intro e he
    have h := chunkEventsGo_mem titles.length titles sched 0 e he
    exact ⟨h.1, h.2.1⟩
  · exact chunkEventsGo_chain titles.length titles sched 0
  · exact chunkEvents_head titles sched hp hs hn
  · have hcount : sched.countP (fun p => p.2) = titles.length := by
      rw [hp.countP_eq]
      exact chunkSchedule_countP titles.length
    rw [chunkPhaseEvents, chunkEventsGo_getLast titles.length titles sched 0 hne,
      hcount, Nat.zero_add]

/-- Witness for C4: a two-story run under the canonical interleaving — the
chunk events begin at current 0 and end at current 2. -/
theorem claim_C4_witness :
    (chunkPhaseEvents ["A", "B"] (chunkSchedule 2)).head?.map GenerationProgress.current
        = some 0
    ∧ (chunkPhaseEvents ["A", "B"] (chunkSchedule 2)).getLast?.map
        GenerationProgress.current = some 2 := by
  have h := claim_C4 ["A", "B"] (chunkSchedule 2) (List.Perm.refl _)
    (by decide) (by decide)
  exact ⟨h.2.2.2.2.1, h.2.2.2.2.2⟩
